import Mathlib

/-!
Verification development for the DCF repository.

This file gives a shallow embedding of the core computational parts of the
repository (the DCF valuation engine in `streamlit/dcf_calculator.py`, the
screening pipeline in `streamlit/batch_screener.py`, and the cache/dedup
storage layer in `streamlit/db_storage.py`) and proves or refutes the frozen
specification claims about them.

Conventions of the embedding:
- Python floats are modelled as rationals (`ℚ`) wherever the code performs
  field arithmetic, and as reals (`ℝ`) where the code takes a real-valued
  root (the CAGR computation uses `** (1 / num_years)`).
- Python lists ordered newest-to-oldest are Lean `List`s with the newest
  value at the head, exactly as in the source.
- Python dict-with-default access (`d.get(k, v)`) is modelled by total
  structure fields holding the defaulted value.
- Fallible code paths that return `None` are modelled with `Option`.
-/

/-! ## DCF engine (streamlit/dcf_calculator.py) -/

/-- Valuation parameters, after the merge `{**self.default_params, **(params or {})}`
performed by `calculate_dcf_simple` and `run_full_dcf`: every recognized key is
present.  Fields mirror `DCFCalculator.default_params`. -/
structure DCFParams where
  wacc : ℚ
  terminal_growth_rate : ℚ
  projection_years : ℕ
  fcf_growth_rate : ℚ
  conservative_adjustment : ℚ
  normalize_starting_value : Bool
  normalization_years : ℕ

/-- The `default_params` dict of `DCFCalculator.__init__`. -/
def defaultParams : DCFParams where
  wacc := 1/10
  terminal_growth_rate := 1/40
  projection_years := 5
  fcf_growth_rate := 1/10
  conservative_adjustment := 0
  normalize_starting_value := true
  normalization_years := 5

/-- `DCFCalculator.calculate_historical_fcf_growth` (dcf_calculator.py lines 62-94).
The input list is ordered newest first.  The result is real-valued because the
source computes `(ending / beginning) ** (1 / num_years)`. -/
noncomputable def calculate_historical_fcf_growth (historical_fcf : List ℚ)
    (years : ℕ) : ℝ :=
  -- `if not historical_fcf or len(historical_fcf) < 2: return 0.0`
  if historical_fcf.length < 2 then 0
  else
    -- `fcf_subset = historical_fcf[:min(years, len(historical_fcf))]`
    let fcf_subset := historical_fcf.take (min years historical_fcf.length)
    -- `positive_fcf = [fcf for fcf in fcf_subset if fcf > 0]`
    let positive_fcf := fcf_subset.filter (fun fcf => 0 < fcf)
    if positive_fcf.length < 2 then 0
    else
      let ending_value := positive_fcf.headD 0      -- `positive_fcf[0]`
      let beginning_value := positive_fcf.getLastD 0 -- `positive_fcf[-1]`
      let num_years := positive_fcf.length - 1
      if beginning_value ≤ 0 ∨ num_years = 0 then 0
      else
        let cagr : ℝ :=
          ((ending_value : ℝ) / (beginning_value : ℝ)) ^ ((1 : ℝ) / (num_years : ℝ)) - 1
        -- `cagr = max(-0.5, min(1.0, cagr))`
        max (-(1/2)) (min 1 cagr)

/-- `DCFCalculator.project_fcf_simple` (dcf_calculator.py lines 96-127). -/
def project_fcf_simple (historical_fcf : List ℚ) (projection_years : ℕ)
    (growth_rate : ℚ) (normalize : Bool) (normalization_years : ℕ) : List ℚ :=
  if historical_fcf = [] then []
  else
    let base_fcf :=
      if normalize ∧ 2 ≤ historical_fcf.length then
        -- `n = min(normalization_years, len(historical_fcf)); base = sum(h[:n]) / n`
        let n := min normalization_years historical_fcf.length
        (historical_fcf.take n).sum / (n : ℚ)
      else
        historical_fcf.headD 0
    -- `for year in range(1, projection_years + 1): base * (1 + g) ** year`
    (List.range' 1 projection_years).map (fun year => base_fcf * (1 + growth_rate) ^ year)

/-- `DCFCalculator.calculate_terminal_value` (dcf_calculator.py lines 163-175). -/
def calculate_terminal_value (final_fcf terminal_growth_rate wacc : ℚ) : ℚ :=
  if wacc ≤ terminal_growth_rate then
    final_fcf * 20  -- fallback to simple multiple
  else
    (final_fcf * (1 + terminal_growth_rate)) / (wacc - terminal_growth_rate)

/-- `DCFCalculator.discount_cash_flows` (dcf_calculator.py lines 177-187):
a running sum over `enumerate(cash_flows, start=1)` of `cf / (1 + wacc) ** year`. -/
def discount_cash_flows (cash_flows : List ℚ) (wacc : ℚ) : ℚ :=
  (cash_flows.enumFrom 1).foldl
    (fun present_value yc => present_value + yc.2 / (1 + wacc) ^ yc.1) 0

/-- Result dict of `DCFCalculator.calculate_dcf_simple`. -/
structure SimpleDCFResult where
  fcf_projections : List ℚ
  pv_fcf : ℚ
  terminal_value : ℚ
  pv_terminal : ℚ
  enterprise_value : ℚ

/-- `DCFCalculator.calculate_dcf_simple` (dcf_calculator.py lines 189-228).
The parameter merge with the defaults has already happened (`DCFParams` is the
merged dict). -/
def calculate_dcf_simple (historical_fcf : List ℚ) (params : DCFParams) :
    Option SimpleDCFResult :=
  let fcf_projections := project_fcf_simple historical_fcf params.projection_years
    params.fcf_growth_rate params.normalize_starting_value params.normalization_years
  if fcf_projections = [] then none
  else
    let terminal_value := calculate_terminal_value (fcf_projections.getLastD 0)
      params.terminal_growth_rate params.wacc
    let pv_fcf := discount_cash_flows fcf_projections params.wacc
    let pv_terminal := terminal_value / (1 + params.wacc) ^ params.projection_years
    some { fcf_projections := fcf_projections
           pv_fcf := pv_fcf
           terminal_value := terminal_value
           pv_terminal := pv_terminal
           enterprise_value := pv_fcf + pv_terminal }

/-- The part of the result dict of `DCFCalculator.run_full_dcf` that the claims
are about (per-share inputs, so `is_per_share` is true for both input types). -/
structure RunFullDCFResult where
  dcf : SimpleDCFResult
  historical_fcf_growth : ℝ
  historical_years_used : ℕ
  intrinsic_value_per_share : ℚ
  equity_value : ℚ
  cash : ℚ
  debt : ℚ
  shares_outstanding : ℚ

/-- `DCFCalculator.run_full_dcf` (dcf_calculator.py lines 475-549), starting from
the point where the per-share historical series `historical_values`, the
balance-sheet totals `cash` and `debt`, and `shares` have been extracted from the
raw statements.  Both recognized input types (`fcf`, `eps_cont_ops`) yield
per-share series, so `dcf_result['is_per_share']` is true and the per-share
reconciliation branch (lines 512-516) applies. -/
noncomputable def run_full_dcf_core (historical_values : List ℚ)
    (cash debt shares : ℚ) (params : DCFParams) : Option RunFullDCFResult :=
  -- lines 477-478
  let historical_growth := calculate_historical_fcf_growth historical_values 5
  let years_used := min 5 (historical_values.filter (fun val => 0 < val)).length
  -- line 488
  match calculate_dcf_simple historical_values params with
  | none => none
  | some dcf_result =>
    -- lines 512-516: per-share reconciliation
    let cash_per_share := if 0 < shares then cash / shares else 0
    let debt_per_share := if 0 < shares then debt / shares else 0
    let intrinsic_value0 := dcf_result.enterprise_value + cash_per_share - debt_per_share
    -- lines 527-528: margin-of-safety haircut
    let intrinsic_value :=
      if 0 < params.conservative_adjustment then
        intrinsic_value0 * (1 - params.conservative_adjustment)
      else intrinsic_value0
    -- lines 533-536: total equity value for display
    let equity_value := dcf_result.enterprise_value * shares + cash - debt
    some { dcf := dcf_result
           historical_fcf_growth := historical_growth
           historical_years_used := years_used
           intrinsic_value_per_share := intrinsic_value
           equity_value := equity_value
           cash := cash
           debt := debt
           shares_outstanding := shares }

/-! ## Screening pipeline (streamlit/batch_screener.py) -/

/-- Financial metrics summary returned by `BatchScreener.get_financial_metrics`. -/
structure FinMetrics where
  positive_fcf_last_year : Bool
  positive_fcf_years_3 : ℕ
  positive_fcf_years_5 : ℕ
  positive_fcf_years_10 : ℕ
  revenue_growth_years_5 : ℕ

/-- A universe record (a stock dict).  String attributes hold the defaulted
values the code reads with `stock.get(key, default)`: a missing or unknown
sector/exchange is the string `N/A`, a missing market-cap tier is `Unknown`.
The `metrics` field models the `stock['metrics'] = metrics` assignment made
when a stock passes the financial filters. -/
structure Stock where
  ticker : String
  sector : String
  exchange : String
  market_cap_universe : String
  gross_margin : ℚ
  metrics : Option FinMetrics

/-- The filter dict.  List-valued filters are `[]` when absent (absent and
empty are treated alike by the code); numeric filters default to 0;
`positive_fcf_last_year` is `none` for Python `None` and otherwise the string
value (`"Yes"`, `"No"`, `"Any"`, `""`). -/
structure ScreenFilters where
  sector : List String
  exchange : List String
  market_cap_universe : List String
  positive_fcf_last_year : Option String
  positive_fcf_years_3 : ℕ
  positive_fcf_years_5 : ℕ
  positive_fcf_years_10 : ℕ
  revenue_growth_years_5 : ℕ
  min_gross_margin : ℚ

/-- Helper for Python substring tests (`pat in s`): checks whether `pat` occurs
contiguously in `s`. -/
def containsAux (pat : List Char) : List Char → Bool
  | [] => pat.isPrefixOf []
  | c :: rest => pat.isPrefixOf (c :: rest) || containsAux pat rest

/-- Python `pat in s` for strings. -/
def strContainsSub (s pat : String) : Bool :=
  containsAux pat.data s.data

/-- Python `s.upper()`. -/
def strUpper (s : String) : String :=
  ⟨s.data.map Char.toUpper⟩

/-- The exchange-name normalization block of `passes_basic_filters`
(batch_screener.py lines 800-809): guarded by the Python truthiness test
`if stock_exchange and stock_exchange != 'N/A'`. -/
def normalizeExchange (ex : String) : String :=
  if ex ≠ "" ∧ ex ≠ "N/A" then
    let u := strUpper ex
    if strContainsSub u "NASDAQ" ∨ strContainsSub u "NMS" ∨ strContainsSub u "NGM" then
      "NASDAQ"
    else if strContainsSub u "NYSE" ∨ strContainsSub u "NYQ" then "NYSE"
    else if strContainsSub u "AMEX" then "AMEX"
    else ex
  else ex

/-- Sector clause of `BatchScreener.passes_basic_filters` (lines 789-794):
with a non-empty sector filter, reject only a known sector outside the list. -/
def sectorCheck (filters : ScreenFilters) (stock : Stock) : Bool :=
  if filters.sector ≠ [] then
    if stock.sector ≠ "N/A" ∧ stock.sector ∉ filters.sector then false else true
  else true

/-- Exchange clause of `passes_basic_filters` (lines 796-813). -/
def exchangeCheck (filters : ScreenFilters) (stock : Stock) : Bool :=
  if filters.exchange ≠ [] then
    let ex := normalizeExchange stock.exchange
    if ex ≠ "N/A" ∧ ex ∉ filters.exchange then false else true
  else true

/-- Market-cap-tier clause of `passes_basic_filters` (lines 815-821). -/
def marketCapCheck (filters : ScreenFilters) (stock : Stock) : Bool :=
  if filters.market_cap_universe ≠ [] then
    if stock.market_cap_universe ≠ "Unknown" ∧
        stock.market_cap_universe ∉ filters.market_cap_universe then false
    else true
  else true

/-- `BatchScreener.passes_basic_filters` (batch_screener.py lines 780-824).
The Python early returns compose as short-circuit conjunction.  The leading
`if not filters: return True` is subsumed: an absent/empty filter dict is the
record with all list filters empty, for which every clause passes. -/
def passes_basic_filters (stock : Stock) (filters : ScreenFilters) : Bool :=
  sectorCheck filters stock && exchangeCheck filters stock &&
    marketCapCheck filters stock

/-- `BatchScreener.passes_financial_filters` (batch_screener.py lines 826-869). -/
def passes_financial_filters (stock : Stock) (metrics : FinMetrics)
    (filters : ScreenFilters) : Bool :=
  if filters.positive_fcf_last_year = some "Yes" ∧ ¬metrics.positive_fcf_last_year then
    false
  else if filters.positive_fcf_last_year = some "No" ∧ metrics.positive_fcf_last_year then
    false
  else if 0 < filters.positive_fcf_years_3 ∧
      metrics.positive_fcf_years_3 < filters.positive_fcf_years_3 then false
  else if 0 < filters.positive_fcf_years_5 ∧
      metrics.positive_fcf_years_5 < filters.positive_fcf_years_5 then false
  else if 0 < filters.positive_fcf_years_10 ∧
      metrics.positive_fcf_years_10 < filters.positive_fcf_years_10 then false
  else if 0 < filters.revenue_growth_years_5 ∧
      metrics.revenue_growth_years_5 < filters.revenue_growth_years_5 then false
  else if 0 < filters.min_gross_margin ∧
      stock.gross_margin < filters.min_gross_margin then false
  else true

/-- `BatchScreener.has_financial_filters` (batch_screener.py lines 870-884). -/
def has_financial_filters (filters : ScreenFilters) : Bool :=
  (match filters.positive_fcf_last_year with
   | none => false
   | some s => decide (s ≠ "Any" ∧ s ≠ "")) ||
  decide (0 < filters.positive_fcf_years_3) ||
  decide (0 < filters.positive_fcf_years_5) ||
  decide (0 < filters.positive_fcf_years_10) ||
  decide (0 < filters.revenue_growth_years_5) ||
  decide (0 < filters.min_gross_margin)

/-- `BatchScreener.needs_enrichment` (batch_screener.py lines 886-912). -/
def needs_enrichment (filters : ScreenFilters) (pre_filtered : Bool) : Bool :=
  if pre_filtered then decide (0 < filters.min_gross_margin)
  else
    decide (filters.sector ≠ []) || decide (filters.market_cap_universe ≠ []) ||
      decide (0 < filters.min_gross_margin)

/-- Events produced by one screening run: the arguments of every
`checked_callback(ticker, passed_all)` invocation in order, and the stocks
yielded as matches (each of which is also the argument of a
`match_callback` invocation). -/
structure ScreenEvents where
  checked : List (String × Bool)
  matched : List Stock

/-- The Python truthiness break test
`if max_stocks and matched_count >= max_stocks: break` (line 981): a `None`
or zero `max_stocks` never breaks. -/
def maxReached (max_stocks : Option ℕ) (matched_count : ℕ) : Bool :=
  match max_stocks with
  | some m => decide (m ≠ 0 ∧ m ≤ matched_count)
  | none => false

/-- Steps 2 and 3 of the loop body (batch_screener.py lines 995-1024) for one
stock that reached them: enrichment with post-enrichment re-checks, then the
financial filters.  Returns the stock as mutated by the body (enriched, and
with `stock['metrics']` attached on a financial pass) together with
`passed_all`. -/
def screenStep (enrich : Stock → Stock) (metricsOf : String → FinMetrics)
    (filters : ScreenFilters) (pre_filtered need_enrichment need_financial : Bool)
    (stock : Stock) : Stock × Bool :=
  -- Step 2: enrichment plus post-enrichment re-checks
  let step2 : Stock × Bool :=
    if need_enrichment then
      let stock1 := enrich stock
      if ¬pre_filtered then
        let p1 : Bool :=
          if filters.sector ≠ [] ∧ stock1.sector ≠ "N/A" ∧
              stock1.sector ∉ filters.sector then false else true
        let p2 : Bool :=
          if p1 ∧ filters.market_cap_universe ≠ [] ∧
              stock1.market_cap_universe ∉ filters.market_cap_universe then
            false
          else p1
        (stock1, p2)
      else (stock1, true)
    else (stock, true)
  -- Step 3: financial filters
  if step2.2 ∧ need_financial then
    let metrics := metricsOf step2.1.ticker
    if passes_financial_filters step2.1 metrics filters then
      ({ step2.1 with metrics := some metrics }, true)
    else (step2.1, false)
  else step2

/-- The per-ticker loop of `BatchScreener.screen_stocks_streaming`
(batch_screener.py lines 976-1040).  `enrich` models `enrich_stock_info`
(a provider call that rewrites stock attributes) and `metricsOf` models
`get_financial_metrics` (a provider call keyed by ticker); both are external
collaborators passed in as pure functions.  `matched_count` threads the
running match counter used by the `max_stocks` break. -/
def screenLoop (enrich : Stock → Stock) (metricsOf : String → FinMetrics)
    (filters : ScreenFilters) (pre_filtered need_enrichment need_financial : Bool)
    (max_stocks : Option ℕ) : List Stock → ℕ → ScreenEvents
  | [], _ => { checked := [], matched := [] }
  | stock :: rest, matched_count =>
    -- `if max_stocks and matched_count >= max_stocks: break`
    if maxReached max_stocks matched_count then
      { checked := [], matched := [] }
    else
      -- Step 1: basic filters, skipped when pre-filtered server-side
      if ¬pre_filtered ∧ ¬passes_basic_filters stock filters then
        screenLoop enrich metricsOf filters pre_filtered need_enrichment
          need_financial max_stocks rest matched_count
      else
        -- `if required_slow_check and checked_callback:
        --    checked_callback(stock['ticker'], passed_all)`;
        -- the match counter increments exactly when `passed_all` holds
        { checked :=
            (if need_enrichment || need_financial then
              [((screenStep enrich metricsOf filters pre_filtered need_enrichment
                  need_financial stock).1.ticker,
                (screenStep enrich metricsOf filters pre_filtered need_enrichment
                  need_financial stock).2)]
            else []) ++
            (screenLoop enrich metricsOf filters pre_filtered need_enrichment
              need_financial max_stocks rest
              (if (screenStep enrich metricsOf filters pre_filtered need_enrichment
                  need_financial stock).2 then matched_count + 1
                else matched_count)).checked
          matched :=
            (if (screenStep enrich metricsOf filters pre_filtered need_enrichment
                need_financial stock).2 then
              [(screenStep enrich metricsOf filters pre_filtered need_enrichment
                  need_financial stock).1]
            else []) ++
            (screenLoop enrich metricsOf filters pre_filtered need_enrichment
              need_financial max_stocks rest
              (if (screenStep enrich metricsOf filters pre_filtered need_enrichment
                  need_financial stock).2 then matched_count + 1
                else matched_count)).matched }

/-- The upfront exclusion filtering of `screen_stocks_streaming`
(batch_screener.py lines 944-949):
`stocks = [s for s in stocks if s['ticker'] not in exclude_tickers]`. -/
def effectiveUniverse (tickerUniverse : List Stock) (exclude_tickers : List String) :
    List Stock :=
  tickerUniverse.filter (fun s => s.ticker ∉ exclude_tickers)

/-- The `pre_filtered` decision of `screen_stocks_streaming`
(batch_screener.py lines 965-968): the data source is ROIC and the first
universe record carries a known market-cap tier. -/
def preFilteredFlag (data_source : String) (stocks : List Stock) : Bool :=
  match stocks with
  | [] => false
  | s :: _ => decide (data_source = "roic") && decide (s.market_cap_universe ≠ "Unknown")

/-- `BatchScreener.screen_stocks_streaming` (batch_screener.py lines 914-1043)
as a function from the fetched universe to the run's events.  The universe
fetch itself (`get_stock_universe`) is an external provider call whose result
is the `tickerUniverse` argument. -/
def screen_stocks_streaming (enrich : Stock → Stock)
    (metricsOf : String → FinMetrics) (filters : ScreenFilters)
    (tickerUniverse : List Stock) (exclude_tickers : List String)
    (data_source : String) (max_stocks : Option ℕ) : ScreenEvents :=
  let stocks := effectiveUniverse tickerUniverse exclude_tickers
  match stocks with
  | [] => { checked := [], matched := [] }
  | s :: rest =>
    let pre_filtered := preFilteredFlag data_source (s :: rest)
    screenLoop enrich metricsOf filters pre_filtered
      (needs_enrichment filters pre_filtered) (has_financial_filters filters)
      max_stocks (s :: rest) 0

/-! ## Filter fingerprint (streamlit/db_storage.py, `_get_filter_hash`)

The source serializes the filter dict with `json.dumps(filters, sort_keys=True)`
(Python defaults: separators `", "` and `": "`, `ensure_ascii=True`), hashes the
UTF-8 encoding with MD5, keeps the first 8 digest bytes and reads them as a
big-endian signed integer.  The embedding reproduces each stage: a Python JSON
value type, the serializer (text modelled as its character list), the UTF-8
encoder, MD5 itself, and the signed big-endian conversion. -/

/-- A Python value serializable by `json.dumps`, restricted to the shapes the
filter dicts use (null, bool, int, str, list, dict). -/
inductive PyJson where
  | null : PyJson
  | bool (b : Bool) : PyJson
  | int (n : ℤ) : PyJson
  | str (s : String) : PyJson
  | arr (elems : List PyJson) : PyJson
  | obj (entries : List (String × PyJson)) : PyJson

/-- Lexicographic-by-code-point comparison of character lists: exactly Python's
string `<=` used by `sort_keys=True`. -/
def charListLe : List Char → List Char → Bool
  | [], _ => true
  | _ :: _, [] => false
  | a :: as, b :: bs =>
    if a.toNat < b.toNat then true
    else if b.toNat < a.toNat then false
    else charListLe as bs

/-- Lowercase hex digit, as produced by Python's `\uXXXX` escapes. -/
def hexDigit (n : ℕ) : Char :=
  if n < 10 then Char.ofNat (48 + n) else Char.ofNat (87 + n)

/-- A `\uXXXX` escape for a 16-bit value. -/
def uEscape (n : ℕ) : List Char :=
  ['\\', 'u', hexDigit (n / 4096 % 16), hexDigit (n / 256 % 16),
   hexDigit (n / 16 % 16), hexDigit (n % 16)]

/-- How `json.dumps` (with its default `ensure_ascii=True`) renders one
character inside a string literal. -/
def escapeChar (c : Char) : List Char :=
  if c = '"' then ['\\', '"']
  else if c = '\\' then ['\\', '\\']
  else if c = '\n' then ['\\', 'n']
  else if c = '\t' then ['\\', 't']
  else if c = '\r' then ['\\', 'r']
  else if c.toNat = 8 then ['\\', 'b']
  else if c.toNat = 12 then ['\\', 'f']
  else if c.toNat < 32 ∨ 128 ≤ c.toNat then
    if c.toNat < 65536 then uEscape c.toNat
    else
      uEscape (55296 + (c.toNat - 65536) / 1024) ++
        uEscape (56320 + (c.toNat - 65536) % 1024)
  else [c]

/-- A JSON string literal: quote, escaped characters, quote. -/
def dumpStr (s : String) : List Char :=
  ['"'] ++ (s.data.map escapeChar).flatten ++ ['"']

/-- Decimal digits of a natural number, accumulator style. -/
def natToCharsAux : ℕ → List Char → List Char
  | 0, acc => acc
  | n + 1, acc =>
    natToCharsAux ((n + 1) / 10) (Char.ofNat (48 + (n + 1) % 10) :: acc)
decreasing_by exact Nat.div_lt_self (Nat.succ_pos n) (by omega)

/-- Decimal rendering of an integer, as Python prints ints in JSON. -/
def intToChars (n : ℤ) : List Char :=
  if n = 0 then ['0']
  else if n < 0 then '-' :: natToCharsAux n.natAbs []
  else natToCharsAux n.natAbs []

/-- Join with a separator, Python `sep.join(...)`. -/
def joinSep (sep : List Char) : List (List Char) → List Char
  | [] => []
  | [x] => x
  | x :: y :: rest => x ++ sep ++ joinSep sep (y :: rest)

/-- Sort serialized object entries by key, exactly the enumeration order
`sort_keys=True` uses.  The comparator reads only the key, so serializing the
values before or after sorting yields the same text (the sort is stable). -/
def sortPairs (l : List (String × List Char)) : List (String × List Char) :=
  l.mergeSort (fun a b => charListLe a.1.data b.1.data)

mutual
/-- `json.dumps(v, sort_keys=True)` with Python's default separators, as a
character list.  Dict entries are serialized and then enumerated in sorted key
order (`\x7b`/`\x7d` denote the object braces). -/
def dumpChars : PyJson → List Char
  | .null => "null".data
  | .bool true => "true".data
  | .bool false => "false".data
  | .int n => intToChars n
  | .str s => dumpStr s
  | .arr elems => ['['] ++ joinSep (", ".data) (dumpList elems) ++ [']']
  | .obj entries =>
    [Char.ofNat 123] ++
      joinSep (", ".data)
        ((sortPairs (dumpEntries entries)).map
          (fun kv => dumpStr kv.1 ++ ": ".data ++ kv.2)) ++
      [Char.ofNat 125]

/-- Serialize the elements of a JSON array. -/
def dumpList : List PyJson → List (List Char)
  | [] => []
  | v :: vs => dumpChars v :: dumpList vs

/-- Serialize the values of a JSON object, keeping keys. -/
def dumpEntries : List (String × PyJson) → List (String × List Char)
  | [] => []
  | (k, v) :: es => (k, dumpChars v) :: dumpEntries es
end

/-- UTF-8 encoding of one character (`str.encode()`), as byte values. -/
def utf8EncodeChar (c : Char) : List ℕ :=
  let n := c.toNat
  if n < 128 then [n]
  else if n < 2048 then [192 + n / 64, 128 + n % 64]
  else if n < 65536 then [224 + n / 4096, 128 + n / 64 % 64, 128 + n % 64]
  else [240 + n / 262144, 128 + n / 4096 % 64, 128 + n / 64 % 64, 128 + n % 64]

/-- UTF-8 encoding of a character list. -/
def utf8Encode (chars : List Char) : List ℕ :=
  (chars.map utf8EncodeChar).flatten

/-! MD5 (RFC 1321), operating on byte lists with 32-bit words as naturals
reduced mod 2^32. -/

/-- The 64 MD5 sine-derived constants `K`. -/
def md5K : List ℕ :=
  [0xd76aa478, 0xe8c7b756, 0x242070db, 0xc1bdceee,
   0xf57c0faf, 0x4787c62a, 0xa8304613, 0xfd469501,
   0x698098d8, 0x8b44f7af, 0xffff5bb1, 0x895cd7be,
   0x6b901122, 0xfd987193, 0xa679438e, 0x49b40821,
   0xf61e2562, 0xc040b340, 0x265e5a51, 0xe9b6c7aa,
   0xd62f105d, 0x02441453, 0xd8a1e681, 0xe7d3fbc8,
   0x21e1cde6, 0xc33707d6, 0xf4d50d87, 0x455a14ed,
   0xa9e3e905, 0xfcefa3f8, 0x676f02d9, 0x8d2a4c8a,
   0xfffa3942, 0x8771f681, 0x6d9d6122, 0xfde5380c,
   0xa4beea44, 0x4bdecfa9, 0xf6bb4b60, 0xbebfbc70,
   0x289b7ec6, 0xeaa127fa, 0xd4ef3085, 0x04881d05,
   0xd9d4d039, 0xe6db99e5, 0x1fa27cf8, 0xc4ac5665,
   0xf4292244, 0x432aff97, 0xab9423a7, 0xfc93a039,
   0x655b59c3, 0x8f0ccc92, 0xffeff47d, 0x85845dd1,
   0x6fa87e4f, 0xfe2ce6e0, 0xa3014314, 0x4e0811a1,
   0xf7537e82, 0xbd3af235, 0x2ad7d2bb, 0xeb86d391]

/-- The 64 MD5 per-round left-rotation amounts `s`. -/
def md5S : List ℕ :=
  [7, 12, 17, 22, 7, 12, 17, 22, 7, 12, 17, 22, 7, 12, 17, 22,
   5, 9, 14, 20, 5, 9, 14, 20, 5, 9, 14, 20, 5, 9, 14, 20,
   4, 11, 16, 23, 4, 11, 16, 23, 4, 11, 16, 23, 4, 11, 16, 23,
   6, 10, 15, 21, 6, 10, 15, 21, 6, 10, 15, 21, 6, 10, 15, 21]

/-- 32-bit left rotation. -/
def rotl32 (x s : ℕ) : ℕ :=
  (x * 2 ^ s) % 2 ^ 32 + x / 2 ^ (32 - s)

/-- Little-endian 32-bit word from (up to) four bytes. -/
def leWord (b : List ℕ) : ℕ :=
  b.getD 0 0 + 256 * b.getD 1 0 + 65536 * b.getD 2 0 + 16777216 * b.getD 3 0

/-- A 64-byte block as its 16 little-endian words `M[0..15]`. -/
def md5Words (block : List ℕ) : List ℕ :=
  (List.range 16).map (fun j => leWord ((block.drop (4 * j)).take 4))

/-- Little-endian byte rendering of a value, `k` bytes. -/
def leBytes (n k : ℕ) : List ℕ :=
  (List.range k).map (fun i => n / 256 ^ i % 256)

/-- One MD5 round `i` on state `(A, B, C, D)` with message words `M`. -/
def md5Round (M : List ℕ) (st : ℕ × ℕ × ℕ × ℕ) (i : ℕ) : ℕ × ℕ × ℕ × ℕ :=
  let A := st.1; let B := st.2.1; let C := st.2.2.1; let D := st.2.2.2
  let mask := 0xffffffff
  let fg : ℕ × ℕ :=
    if i < 16 then ((B.land C).lor ((mask.xor B).land D), i)
    else if i < 32 then ((D.land B).lor ((mask.xor D).land C), (5 * i + 1) % 16)
    else if i < 48 then ((B.xor C).xor D, (3 * i + 5) % 16)
    else (C.xor (B.lor (mask.xor D)), 7 * i % 16)
  let f := (fg.1 + A + md5K.getD i 0 + M.getD fg.2 0) % 2 ^ 32
  (D, (B + rotl32 f (md5S.getD i 0)) % 2 ^ 32, B, C)

/-- Fold one 64-byte block into the running MD5 state. -/
def md5Block (st : ℕ × ℕ × ℕ × ℕ) (block : List ℕ) : ℕ × ℕ × ℕ × ℕ :=
  let M := md5Words block
  let r := (List.range 64).foldl (md5Round M) st
  ((st.1 + r.1) % 2 ^ 32, (st.2.1 + r.2.1) % 2 ^ 32,
   (st.2.2.1 + r.2.2.1) % 2 ^ 32, (st.2.2.2 + r.2.2.2) % 2 ^ 32)

/-- Split a byte list into 64-byte chunks. -/
def chunks64 : List ℕ → List (List ℕ)
  | [] => []
  | b :: rest =>
    (b :: rest).take 64 :: chunks64 ((b :: rest).drop 64)
termination_by l => l.length
decreasing_by simp [List.length_drop]; omega

/-- MD5 padding: `0x80`, zeros to 56 mod 64, then the bit length as 8
little-endian bytes. -/
def md5Pad (msg : List ℕ) : List ℕ :=
  msg ++ [128] ++ List.replicate ((119 - msg.length % 64) % 64) 0 ++
    leBytes (8 * msg.length) 8

/-- The MD5 digest (16 bytes) of a byte list. -/
def md5 (msg : List ℕ) : List ℕ :=
  let st := (chunks64 (md5Pad msg)).foldl md5Block
    (0x67452301, 0xefcdab89, 0x98badcfe, 0x10325476)
  leBytes st.1 4 ++ leBytes st.2.1 4 ++ leBytes st.2.2.1 4 ++ leBytes st.2.2.2 4

/-- Python `int.from_bytes(b, byteorder='big', signed=True)`. -/
def intFromBytesSignedBE (b : List ℕ) : ℤ :=
  let u : ℕ := b.foldl (fun acc x => 256 * acc + x) 0
  if 2 ^ (8 * b.length - 1) ≤ u then (u : ℤ) - 2 ^ (8 * b.length) else (u : ℤ)

/-- `_get_filter_hash` (db_storage.py lines 370-383): `0` for an absent/empty
filter dict, otherwise the first 8 MD5 digest bytes of the canonical
sorted-keys JSON serialization, read as a big-endian signed integer. -/
def get_filter_hash (filters : List (String × PyJson)) : ℤ :=
  match filters with
  | [] => 0
  | f :: fs =>
    let filter_str := dumpChars (.obj (f :: fs))
    let hash_bytes := (md5 (utf8Encode filter_str)).take 8
    intFromBytesSignedBE hash_bytes

/-! ## Checked-ticker cache (streamlit/db_storage.py) -/

/-- One row of the `checked_tickers` table (§4.3 CheckedTicker record).
Timestamps are in days. -/
structure CheckedRow where
  ticker : String
  filter_hash : ℤ
  matched : Bool
  checked_at : ℤ

/-- The storage backend selected at import time by `USE_SUPabase`:
Supabase when credentials are configured, SQLite otherwise. -/
inductive StorageBackend where
  | supabase : StorageBackend
  | sqlite : StorageBackend

/-- Modelled from the spec: the Supabase `checked_tickers` table is an external
collaborator (a network service, not repository code).  §4.3 requires
`record_checked` to be an at-most-one-effective-record upsert per
(ticker, fingerprint), matching the client call
`upsert(data, on_conflict='ticker,filter_hash')` in
`_supabase_save_checked_ticker`. -/
def supabaseUpsertChecked (rows : List CheckedRow) (r : CheckedRow) :
    List CheckedRow :=
  r :: rows.filter (fun q => ¬(q.ticker = r.ticker ∧ q.filter_hash = r.filter_hash))

/-- `save_checked_ticker` (db_storage.py lines 514-520): hash the filters, then
dispatch on the backend.  The SQLite branch `_sqlite_save_checked_ticker`
(lines 493-495) is a deliberate no-op ("checked_tickers not cached without
Supabase"). -/
def save_checked_ticker (backend : StorageBackend) (rows : List CheckedRow)
    (ticker : String) (filters : List (String × PyJson)) (matched : Bool)
    (now : ℤ) : List CheckedRow :=
  let filter_hash := get_filter_hash filters
  match backend with
  | .supabase => supabaseUpsertChecked rows
      { ticker := ticker, filter_hash := filter_hash, matched := matched,
        checked_at := now }
  | .sqlite => rows

/-- `get_recently_checked_tickers` (db_storage.py lines 532-542): hash the
filters and dispatch.  The Supabase branch selects tickers of rows with the
same `filter_hash` and `checked_at >= now - days`
(`_supabase_get_recently_checked_tickers`); the SQLite branch
`_sqlite_get_recently_checked_tickers` (lines 503-505) always returns the
empty set. -/
def get_recently_checked_tickers (backend : StorageBackend)
    (rows : List CheckedRow) (filters : List (String × PyJson))
    (days now : ℤ) : List String :=
  let filter_hash := get_filter_hash filters
  match backend with
  | .supabase =>
    (rows.filter (fun r =>
      r.filter_hash = filter_hash ∧ now - days ≤ r.checked_at)).map
        (fun r => r.ticker)
  | .sqlite => []

/-! ## Theorems -/

/-- C2: for every final projected value, terminal growth rate and discount
rate, `calculate_terminal_value` returns exactly `final_value * 20` when
`wacc <= terminal_growth_rate` (a defined fallback, positive for positive
input, never an exception), and the Gordon-growth value
`final_value * (1 + g) / (wacc - g)` otherwise. -/
theorem calculate_terminal_value_spec (final_value g wacc : ℚ) :
    (wacc ≤ g →
      calculate_terminal_value final_value g wacc = final_value * 20 ∧
      (0 < final_value → 0 < calculate_terminal_value final_value g wacc)) ∧
    (g < wacc →
      calculate_terminal_value final_value g wacc =
        final_value * (1 + g) / (wacc - g)) := by
  unfold calculate_terminal_value
  constructor
  · intro h
    rw [if_pos h]
    exact ⟨rfl, fun hv => by positivity⟩
  · intro h
    rw [if_neg (not_le.mpr h)]

/-- Witness for C2, E2E scenario B of the spec: `wacc = 0.05`,
`terminal_growth_rate = 0.06`, final value 10 gives exactly the 20x multiple. -/
theorem calculate_terminal_value_spec_witness :
    calculate_terminal_value 10 (6/100) (5/100) = 10 * 20 :=
  ((calculate_terminal_value_spec 10 (6/100) (5/100)).1 (by norm_num)).1

/-- C3: `calculate_historical_fcf_growth` always returns a value in the
closed interval [-0.50, 1.00]; and whenever the most recent
`min(lookback, length)` entries contain at least 2 strictly positive values,
it returns the CAGR `(newest_positive / oldest_positive_in_subset)^(1/(count-1)) - 1`
clamped to that interval. -/
theorem calculate_historical_fcf_growth_spec (hist : List ℚ) (years : ℕ) :
    (-(1/2) ≤ calculate_historical_fcf_growth hist years ∧
      calculate_historical_fcf_growth hist years ≤ 1) ∧
    (∀ pos : List ℚ,
      pos = (hist.take (min years hist.length)).filter (fun fcf => 0 < fcf) →
      2 ≤ pos.length →
      calculate_historical_fcf_growth hist years =
        max (-(1/2)) (min 1
          (((pos.headD 0 : ℝ) / (pos.getLastD 0 : ℝ)) ^
            ((1 : ℝ) / ((pos.length - 1 : ℕ) : ℝ)) - 1))) := by
  constructor
  · unfold calculate_historical_fcf_growth
    dsimp only
    split_ifs with h1 h2 h3
    · norm_num
    · norm_num
    · norm_num
    · exact ⟨le_max_left _ _, max_le (by norm_num) (min_le_left _ _)⟩
  · intro pos hposdef h2
    have hpos_ne : pos ≠ [] := by
      intro h0
      rw [h0] at h2
      simp at h2
    have hlen2 : ¬ hist.length < 2 := by
      have ha := List.length_filter_le (fun fcf => decide (0 < fcf))
        (hist.take (min years hist.length))
      have hb := List.length_take_le (min years hist.length) hist
      rw [← hposdef] at ha
      omega
    have hlast_mem : pos.getLastD 0 ∈ pos := by
      rw [List.getLastD_eq_getLast?, List.getLast?_eq_getLast _ hpos_ne]
      exact List.getLast_mem hpos_ne
    have hlast_pos : 0 < pos.getLastD 0 := by
      have hmem2 : pos.getLastD 0 ∈
          (hist.take (min years hist.length)).filter (fun fcf => 0 < fcf) := by
        rw [← hposdef]
        exact hlast_mem
      exact of_decide_eq_true (List.mem_filter.mp hmem2).2
    unfold calculate_historical_fcf_growth
    dsimp only
    rw [← hposdef]
    rw [if_neg hlen2, if_neg (by omega),
      if_neg (by push_neg; exact ⟨hlast_pos, by omega⟩)]

/-- Witness for C3: the two-entry series `[4, 1]` (newest first) has CAGR
`(4/1)^(1/1) - 1 = 3`, clamped to the upper bound `1.00`. -/
theorem calculate_historical_fcf_growth_spec_witness :
    calculate_historical_fcf_growth [4, 1] 5 = 1 := by
  have h := (calculate_historical_fcf_growth_spec [4, 1] 5).2 [4, 1]
    (by norm_num [List.filter]) (by norm_num)
  rw [h]
  norm_num [Real.rpow_one]

/-- The running-sum loop of `discount_cash_flows`, in closed form for any
starting index and accumulator. -/
theorem enumFrom_discount_foldl (w : ℚ) :
    ∀ (cfs : List ℚ) (k : ℕ) (a : ℚ),
      (cfs.enumFrom k).foldl (fun pv yc => pv + yc.2 / (1 + w) ^ yc.1) a =
        a + ∑ t ∈ Finset.range cfs.length, cfs.getD t 0 / (1 + w) ^ (t + k)
  | [], k, a => by simp
  | x :: xs, k, a => by
    simp only [List.enumFrom, List.foldl_cons]
    rw [enumFrom_discount_foldl w xs (k + 1) (a + x / (1 + w) ^ k)]
    rw [List.length_cons, Finset.sum_range_succ']
    simp only [List.getD_cons_succ, List.getD_cons_zero, Nat.zero_add]
    have hsum : ∀ t : ℕ, xs.getD t 0 / (1 + w) ^ (t + 1 + k) =
        xs.getD t 0 / (1 + w) ^ (t + (k + 1)) := by
      intro t
      congr 2
      omega
    rw [Finset.sum_congr rfl (fun t _ => hsum t)]
    ring

/-- C6: `discount_cash_flows` equals the sum of `cf_t / (1+wacc)^t` over
`t = 1..N`; and in `calculate_dcf_simple` the terminal value is discounted
once at the end of the projection horizon
(`pv_terminal = TV / (1+wacc)^projection_years`) and
`enterprise_value = pv_of_projection + pv_of_terminal`. -/
theorem discount_and_value_spec :
    (∀ (cfs : List ℚ) (wacc : ℚ),
      discount_cash_flows cfs wacc =
        ∑ t ∈ Finset.range cfs.length, cfs.getD t 0 / (1 + wacc) ^ (t + 1)) ∧
    (∀ (hist : List ℚ) (p : DCFParams) (d : SimpleDCFResult),
      calculate_dcf_simple hist p = some d →
      d.pv_fcf = discount_cash_flows d.fcf_projections p.wacc ∧
      d.pv_terminal = d.terminal_value / (1 + p.wacc) ^ p.projection_years ∧
      d.enterprise_value = d.pv_fcf + d.pv_terminal) := by
  constructor
  · intro cfs wacc
    rw [discount_cash_flows, enumFrom_discount_foldl]
    simp
  · intro hist p d hd
    by_cases hproj : project_fcf_simple hist p.projection_years p.fcf_growth_rate
        p.normalize_starting_value p.normalization_years = []
    · simp [calculate_dcf_simple, hproj] at hd
    · simp only [calculate_dcf_simple, if_neg hproj, Option.some.injEq] at hd
      subst hd
      exact ⟨rfl, rfl, rfl⟩

/-- Witness for C6: `calculate_dcf_simple` on the one-entry series `[1]` with
the default parameters produces a result whose enterprise value is the sum of
the two present-value components. -/
theorem discount_and_value_spec_witness :
    ∃ d, calculate_dcf_simple [1] defaultParams = some d ∧
      d.enterprise_value = d.pv_fcf + d.pv_terminal :=
  ⟨_, rfl, (discount_and_value_spec.2 [1] defaultParams _ rfl).2.2⟩

/-- On a non-empty history the projection list has exactly `projection_years`
entries. -/
theorem project_fcf_simple_length (hist : List ℚ) (py : ℕ) (g : ℚ)
    (nz : Bool) (ny : ℕ) (hh : hist ≠ []) :
    (project_fcf_simple hist py g nz ny).length = py := by
  simp [project_fcf_simple, hh]

/-- On a non-empty history with a positive projection horizon,
`calculate_dcf_simple` succeeds. -/
theorem calculate_dcf_simple_isSome (hist : List ℚ) (p : DCFParams)
    (hh : hist ≠ []) (hp : 1 ≤ p.projection_years) :
    ∃ d, calculate_dcf_simple hist p = some d := by
  have hne : project_fcf_simple hist p.projection_years p.fcf_growth_rate
      p.normalize_starting_value p.normalization_years ≠ [] := by
    intro h0
    have hl := project_fcf_simple_length hist p.projection_years p.fcf_growth_rate
      p.normalize_starting_value p.normalization_years hh
    rw [h0] at hl
    simp at hl
    omega
  simp only [calculate_dcf_simple, if_neg hne]
  exact ⟨_, rfl⟩

/-- C1: on per-share inputs with positive shares outstanding, the intrinsic
value per share is `E + C/S - D/S` (cash and debt converted to per-share, not
mixed in as totals) multiplied by `(1 - conservative_adjustment)`. -/
theorem run_full_dcf_per_share_reconciliation (hist : List ℚ)
    (cash debt shares : ℚ) (p : DCFParams) (hh : hist ≠ [])
    (hp : 1 ≤ p.projection_years) (hs : 0 < shares)
    (hc : 0 ≤ p.conservative_adjustment) :
    ∃ r, run_full_dcf_core hist cash debt shares p = some r ∧
      r.intrinsic_value_per_share =
        (r.dcf.enterprise_value + cash / shares - debt / shares) *
          (1 - p.conservative_adjustment) := by
  obtain ⟨d, hd⟩ := calculate_dcf_simple_isSome hist p hh hp
  unfold run_full_dcf_core
  rw [hd]
  refine ⟨_, rfl, ?_⟩
  dsimp only
  rw [if_pos hs, if_pos hs]
  rcases eq_or_lt_of_le hc with hzero | hpos
  · rw [if_neg (by rw [← hzero]; exact lt_irrefl 0), ← hzero]
    ring
  · rw [if_pos hpos]

/-- Witness for C1: history `[1]`, cash 6, debt 2, 2 shares outstanding,
default parameters with a 50% margin of safety. -/
theorem run_full_dcf_per_share_reconciliation_witness :
    ∃ r, run_full_dcf_core [1] 6 2 2
        { defaultParams with conservative_adjustment := 1/2 } = some r ∧
      r.intrinsic_value_per_share =
        (r.dcf.enterprise_value + 6 / 2 - 2 / 2) * (1 - (1/2 : ℚ)) := by
  obtain ⟨r, hr, hv⟩ := run_full_dcf_per_share_reconciliation [1] 6 2 2
    { defaultParams with conservative_adjustment := 1/2 }
    (by simp) (by norm_num [defaultParams]) (by norm_num) (by norm_num)
  exact ⟨r, hr, hv⟩

/-- C5: in a DCF run the projection step produces exactly `projection_years`
values with `projected[t] = base * (1 + growth)^t` for `t = 1..projection_years`,
where `base` is the most recent historical value or (when
`normalize_starting_value` is set) the arithmetic mean of the most recent
`min(normalization_years, available_periods)` values, and the compounded
growth rate is always the user-configured `fcf_growth_rate` parameter. -/
theorem run_full_dcf_projection_spec (hist : List ℚ) (cash debt shares : ℚ)
    (p : DCFParams) (r : RunFullDCFResult) (hny : 1 ≤ p.normalization_years)
    (hr : run_full_dcf_core hist cash debt shares p = some r) :
    r.dcf.fcf_projections.length = p.projection_years ∧
    ∀ t, 1 ≤ t → t ≤ p.projection_years →
      r.dcf.fcf_projections.getD (t - 1) 0 =
        (if p.normalize_starting_value then
          (hist.take (min p.normalization_years hist.length)).sum /
            ((min p.normalization_years hist.length : ℕ) : ℚ)
        else hist.headD 0) * (1 + p.fcf_growth_rate) ^ t := by
  rcases hd : calculate_dcf_simple hist p with _ | d
  · rw [run_full_dcf_core, hd] at hr
    exact absurd hr (by simp)
  · rw [run_full_dcf_core, hd] at hr
    have hdcf : r.dcf = d := by
      cases hr
      rfl
    have hproj : project_fcf_simple hist p.projection_years p.fcf_growth_rate
        p.normalize_starting_value p.normalization_years ≠ [] ∧
        d.fcf_projections = project_fcf_simple hist p.projection_years
          p.fcf_growth_rate p.normalize_starting_value p.normalization_years := by
      by_cases hn : project_fcf_simple hist p.projection_years p.fcf_growth_rate
          p.normalize_starting_value p.normalization_years = []
      · rw [calculate_dcf_simple, if_pos hn] at hd
        exact absurd hd (by simp)
      · rw [calculate_dcf_simple, if_neg hn] at hd
        cases hd
        exact ⟨hn, rfl⟩
    have hh : hist ≠ [] := by
      intro h0
      apply hproj.1
      rw [h0, project_fcf_simple]
      simp
    rw [hdcf, hproj.2]
    constructor
    · exact project_fcf_simple_length hist p.projection_years p.fcf_growth_rate
        p.normalize_starting_value p.normalization_years hh
    · intro t ht1 ht2
      have hbase : (if p.normalize_starting_value ∧ 2 ≤ hist.length then
          (hist.take (min p.normalization_years hist.length)).sum /
            ((min p.normalization_years hist.length : ℕ) : ℚ)
        else hist.headD 0) =
        (if p.normalize_starting_value then
          (hist.take (min p.normalization_years hist.length)).sum /
            ((min p.normalization_years hist.length : ℕ) : ℚ)
        else hist.headD 0) := by
        by_cases hn : p.normalize_starting_value
        · by_cases h2 : 2 ≤ hist.length
          · rw [if_pos ⟨hn, h2⟩, if_pos hn]
          · have hlen1 : hist.length = 1 := by
              have := List.length_pos.mpr hh
              omega
            obtain ⟨x, hx⟩ := List.length_eq_one.mp hlen1
            rw [if_neg (by tauto), if_pos hn, hx]
            have hmin : min p.normalization_years 1 = 1 := by omega
            simp [hmin]
        · rw [if_neg (by tauto), if_neg hn]
      have htlt : t - 1 < (List.range' 1 p.projection_years).length := by
        simp
        omega
      rw [project_fcf_simple, if_neg hh]
      dsimp only
      rw [List.getD_eq_getElem _ _ (by simpa using htlt), List.getElem_map,
        List.getElem_range']
      have ht : 1 + 1 * (t - 1) = t := by omega
      rw [ht, hbase]

/-- Witness for C5: series `[8, 4]` (newest first), no normalization, growth
rate 1, horizon 2: the first projected value is `8 * (1+1)^1 = 16`. -/
theorem run_full_dcf_projection_spec_witness :
    ∃ r, run_full_dcf_core [8, 4] 0 0 1 { defaultParams with normalize_starting_value := false, projection_years := 2, fcf_growth_rate := 1 } = some r ∧
      r.dcf.fcf_projections.length = 2 := by
  obtain ⟨hlen, _⟩ := run_full_dcf_projection_spec [8, 4] 0 0 1
    { defaultParams with normalize_starting_value := false, projection_years := 2, fcf_growth_rate := 1 } _
    (by norm_num [defaultParams]) rfl
  exact ⟨_, rfl, hlen⟩

/-- C4 (amended): when the 5-year lookback window contains fewer than 2
strictly positive values, the run reports exactly 0.0 historical growth, but
the reported years-used equals `min(5, number of positive values in the whole
series)`, which is 0 only when the series contains no positive value at all. -/
theorem run_full_dcf_degenerate_growth (hist : List ℚ) (cash debt shares : ℚ)
    (p : DCFParams) (r : RunFullDCFResult)
    (hr : run_full_dcf_core hist cash debt shares p = some r)
    (hw : ((hist.take (min 5 hist.length)).filter (fun v => 0 < v)).length < 2) :
    r.historical_fcf_growth = 0 ∧
    r.historical_years_used = min 5 (hist.filter (fun v => 0 < v)).length := by
  rcases hd : calculate_dcf_simple hist p with _ | d
  · rw [run_full_dcf_core, hd] at hr
    exact absurd hr (by simp)
  · rw [run_full_dcf_core, hd] at hr
    have hg : r.historical_fcf_growth = calculate_historical_fcf_growth hist 5 := by
      cases hr
      rfl
    have hy : r.historical_years_used =
        min 5 (hist.filter (fun v => 0 < v)).length := by
      cases hr
      rfl
    refine ⟨?_, hy⟩
    rw [hg]
    unfold calculate_historical_fcf_growth
    dsimp only
    by_cases h1 : hist.length < 2
    · rw [if_pos h1]
    · rw [if_neg h1, if_pos hw]

/-- Counterexample for C4 as stated: the single-entry series `[3]` has fewer
than 2 positive values in the lookback window, yet the run reports 1 year
used, not 0 (`years_used = min(5, count of positive values in the whole
series)` in `run_full_dcf`, line 478). -/
theorem run_full_dcf_years_used_counterexample :
    ((([3] : List ℚ).take (min 5 ([3] : List ℚ).length)).filter
        (fun v => 0 < v)).length < 2 ∧
    (run_full_dcf_core [3] 0 0 1 defaultParams).map
        (fun r => r.historical_years_used) = some 1 := by
  constructor
  · norm_num [List.filter]
  · rfl

/-- Witness for C4 (amended) at the same input: growth 0.0 and one year used. -/
theorem run_full_dcf_degenerate_growth_witness :
    ∃ r, run_full_dcf_core [3] 0 0 1 defaultParams = some r ∧
      (r.historical_fcf_growth = 0 ∧
        r.historical_years_used =
          min 5 ((([3] : List ℚ).filter (fun v => 0 < v)).length)) :=
  ⟨_, rfl, run_full_dcf_degenerate_growth [3] 0 0 1 defaultParams _ rfl
    (by norm_num [List.filter])⟩

/-- C10: in `passes_basic_filters` an unknown attribute always passes its
cheap filter — sector `N/A` passes any sector filter, exchange `N/A` passes
any exchange filter, market-cap tier `Unknown` passes any market-cap filter —
and a stock is rejected only when a known (for exchanges: normalized)
attribute value lies outside the corresponding non-empty filter list. -/
theorem passes_basic_filters_unknown_pass (filters : ScreenFilters)
    (stock : Stock) :
    (stock.sector = "N/A" → sectorCheck filters stock = true) ∧
    (stock.exchange = "N/A" → exchangeCheck filters stock = true) ∧
    (stock.market_cap_universe = "Unknown" → marketCapCheck filters stock = true) ∧
    (passes_basic_filters stock filters = false →
      (filters.sector ≠ [] ∧ stock.sector ≠ "N/A" ∧
        stock.sector ∉ filters.sector) ∨
      (filters.exchange ≠ [] ∧ normalizeExchange stock.exchange ≠ "N/A" ∧
        normalizeExchange stock.exchange ∉ filters.exchange) ∨
      (filters.market_cap_universe ≠ [] ∧
        stock.market_cap_universe ≠ "Unknown" ∧
        stock.market_cap_universe ∉ filters.market_cap_universe)) := by
  refine ⟨?_, ?_, ?_, ?_⟩
  · intro hs
    unfold sectorCheck
    split_ifs with h1 h2
    · exact absurd h2.1 (by simp [hs])
    · rfl
    · rfl
  · intro hs
    have hnorm : normalizeExchange stock.exchange = "N/A" := by
      rw [hs, normalizeExchange]
      rw [if_neg (by simp)]
    unfold exchangeCheck
    dsimp only
    split_ifs with h1 h2
    · exact absurd h2.1 (by simp [hnorm])
    · rfl
    · rfl
  · intro hs
    unfold marketCapCheck
    split_ifs with h1 h2
    · exact absurd h2.1 (by simp [hs])
    · rfl
    · rfl
  · intro hfail
    have hsplit : sectorCheck filters stock = false ∨
        exchangeCheck filters stock = false ∨
        marketCapCheck filters stock = false := by
      rcases hsec : sectorCheck filters stock with _ | _
      · exact Or.inl rfl
      · rcases hex : exchangeCheck filters stock with _ | _
        · exact Or.inr (Or.inl rfl)
        · rcases hmc : marketCapCheck filters stock with _ | _
          · exact Or.inr (Or.inr rfl)
          · rw [passes_basic_filters, hsec, hex, hmc] at hfail
            exact absurd hfail (by simp)
    rcases hsplit with h | h | h
    · refine Or.inl ?_
      rw [sectorCheck] at h
      split_ifs at h with h1 h2
      · exact ⟨h1, h2.1, h2.2⟩
    · refine Or.inr (Or.inl ?_)
      rw [exchangeCheck] at h
      dsimp only at h
      split_ifs at h with h1 h2
      · exact ⟨h1, h2.1, h2.2⟩
    · refine Or.inr (Or.inr ?_)
      rw [marketCapCheck] at h
      split_ifs at h with h1 h2
      · exact ⟨h1, h2.1, h2.2⟩

/-- Witness for C10: a stock with unknown sector passes a non-empty sector
filter. -/
theorem passes_basic_filters_unknown_pass_witness :
    sectorCheck
      { sector := ["Technology"], exchange := [], market_cap_universe := [],
        positive_fcf_last_year := none, positive_fcf_years_3 := 0,
        positive_fcf_years_5 := 0, positive_fcf_years_10 := 0,
        revenue_growth_years_5 := 0, min_gross_margin := 0 }
      { ticker := "AAA", sector := "N/A", exchange := "NYSE",
        market_cap_universe := "Large Cap", gross_margin := 0,
        metrics := none } = true :=
  (passes_basic_filters_unknown_pass _ _).1 rfl

/-- `enrich_stock_info` and the metrics attachment never change the ticker, so
the body's checked event carries the original ticker. -/
theorem screenStep_ticker (enrich : Stock → Stock) (metricsOf : String → FinMetrics)
    (filters : ScreenFilters) (pf ne nf : Bool) (s : Stock)
    (henrich : ∀ x, (enrich x).ticker = x.ticker) :
    (screenStep enrich metricsOf filters pf ne nf s).1.ticker = s.ticker := by
  unfold screenStep
  dsimp only
  split_ifs <;> simp [henrich]


/-- A ticker absent from the remaining universe produces no checked events. -/
theorem screenLoop_checked_filter_notmem (enrich : Stock → Stock)
    (metricsOf : String → FinMetrics) (filters : ScreenFilters)
    (pf ne nf : Bool) (mx : Option ℕ)
    (henrich : ∀ x, (enrich x).ticker = x.ticker) (t : String) :
    ∀ (stocks : List Stock) (mc : ℕ), (∀ x ∈ stocks, x.ticker ≠ t) →
      ((screenLoop enrich metricsOf filters pf ne nf mx stocks mc).checked.filter
        (fun e => e.1 == t)) = []
  | [], _, _ => by simp [screenLoop]
  | stock :: rest, mc, h => by
    rw [screenLoop]
    by_cases hmax : maxReached mx mc = true
    · rw [if_pos hmax]
      rfl
    · rw [if_neg hmax]
      by_cases hskip : ¬pf = true ∧ ¬passes_basic_filters stock filters = true
      · rw [if_pos hskip]
        exact screenLoop_checked_filter_notmem enrich metricsOf filters pf ne nf mx
          henrich t rest mc (fun x hx => h x (List.mem_cons_of_mem _ hx))
      · rw [if_neg hskip]
        dsimp only
        rw [List.filter_append]
        have hticker := screenStep_ticker enrich metricsOf filters pf ne nf stock henrich
        have hhd : stock.ticker ≠ t := h stock (List.mem_cons_self _ _)
        have hev : List.filter (fun e => e.1 == t)
            (if (ne || nf : Bool) then
              [((screenStep enrich metricsOf filters pf ne nf stock).1.ticker,
                (screenStep enrich metricsOf filters pf ne nf stock).2)]
            else []) = [] := by
          by_cases hslow : (ne || nf) = true
          · rw [if_pos hslow]
            simp [hticker, hhd]
          · rw [if_neg hslow]
            rfl
        rw [hev, List.nil_append]
        exact screenLoop_checked_filter_notmem enrich metricsOf filters pf ne nf mx
          henrich t rest _ (fun x hx => h x (List.mem_cons_of_mem _ hx))

/-- Core counting lemma for the loop: with no match cap and distinct tickers,
a universe member generates exactly one checked event — carrying its final
`passed_all` flag — when a slow check is needed and it survives (or skips) the
cheap-filter stage, and none otherwise. -/
theorem screenLoop_checked_once (enrich : Stock → Stock)
    (metricsOf : String → FinMetrics) (filters : ScreenFilters)
    (pf ne nf : Bool) (henrich : ∀ x, (enrich x).ticker = x.ticker) :
    ∀ (stocks : List Stock) (mc : ℕ) (s : Stock),
      (stocks.map (fun x => x.ticker)).Nodup → s ∈ stocks →
      ((screenLoop enrich metricsOf filters pf ne nf none stocks mc).checked.filter
          (fun e => e.1 == s.ticker)) =
        (if ((ne || nf) = true) ∧ (pf = true ∨ passes_basic_filters s filters = true) then
          [(s.ticker, (screenStep enrich metricsOf filters pf ne nf s).2)]
        else [])
  | [], _, s, _, hmem => absurd hmem (by simp)
  | stock :: rest, mc, s, hnd, hmem => by
    rw [screenLoop]
    rw [if_neg (by simp [maxReached])]
    rw [List.map_cons, List.nodup_cons] at hnd
    rcases List.mem_cons.mp hmem with heq | hmemrest
    · subst heq
      have hrest : ∀ x ∈ rest, x.ticker ≠ s.ticker := by
        intro x hx hxt
        exact hnd.1 (hxt ▸ List.mem_map_of_mem (fun y => y.ticker) hx)
      by_cases hskip : ¬pf = true ∧ ¬passes_basic_filters s filters = true
      · rw [if_pos hskip]
        rw [screenLoop_checked_filter_notmem enrich metricsOf filters pf ne nf none
          henrich s.ticker rest mc hrest]
        rw [if_neg]
        rintro ⟨-, hpass⟩
        rcases hpass with hpf | hpass
        · exact hskip.1 hpf
        · exact hskip.2 hpass
      · rw [if_neg hskip]
        dsimp only
        rw [List.filter_append]
        rw [screenLoop_checked_filter_notmem enrich metricsOf filters pf ne nf none
          henrich s.ticker rest _ hrest, List.append_nil]
        have hticker := screenStep_ticker enrich metricsOf filters pf ne nf s henrich
        have hcond : (pf = true ∨ passes_basic_filters s filters = true) := by
          by_contra hno
          push_neg at hno
          exact hskip ⟨fun hpf => hno.1 hpf, fun hp => hno.2 hp⟩
        by_cases hslow : (ne || nf) = true
        · rw [if_pos hslow, if_pos ⟨hslow, hcond⟩]
          simp [hticker]
        · rw [if_neg hslow, if_neg (fun hc => hslow hc.1)]
          rfl
    · have hne2 : stock.ticker ≠ s.ticker := by
        intro hxt
        exact hnd.1 (hxt ▸ List.mem_map_of_mem (fun y => y.ticker) hmemrest)
      by_cases hskip : ¬pf = true ∧ ¬passes_basic_filters stock filters = true
      · rw [if_pos hskip]
        exact screenLoop_checked_once enrich metricsOf filters pf ne nf henrich
          rest mc s hnd.2 hmemrest
      · rw [if_neg hskip]
        dsimp only
        rw [List.filter_append]
        have hticker := screenStep_ticker enrich metricsOf filters pf ne nf stock henrich
        have hev : List.filter (fun e => e.1 == s.ticker)
            (if (ne || nf : Bool) then
              [((screenStep enrich metricsOf filters pf ne nf stock).1.ticker,
                (screenStep enrich metricsOf filters pf ne nf stock).2)]
            else []) = [] := by
          by_cases hslow : (ne || nf) = true
          · rw [if_pos hslow]
            simp [hticker, hne2]
          · rw [if_neg hslow]
            rfl
        rw [hev, List.nil_append]
        exact screenLoop_checked_once enrich metricsOf filters pf ne nf henrich
          rest _ s hnd.2 hmemrest

/-- C7 (amended): in `screen_stocks_streaming` with no match cap, a universe
ticker that survives the exclusion set receives the checked callback exactly
once — with its ticker and final `passed_all` flag — if and only if a slow
check is required (`need_enrichment or need_financial`) and the ticker passes
the cheap-filter stage (or the universe was pre-filtered server-side);
otherwise the checked callback is never invoked for it.  In particular a
ticker rejected by the cheap filters, or any ticker in a run whose filters
need neither enrichment nor financial data, generates no checked event. -/
theorem screen_stocks_streaming_checked_spec (enrich : Stock → Stock)
    (metricsOf : String → FinMetrics) (filters : ScreenFilters)
    (tickerUniverse : List Stock) (exclude_tickers : List String)
    (data_source : String) (s : Stock)
    (henrich : ∀ x, (enrich x).ticker = x.ticker)
    (hnodup : ((effectiveUniverse tickerUniverse exclude_tickers).map
      (fun x => x.ticker)).Nodup)
    (hmem : s ∈ effectiveUniverse tickerUniverse exclude_tickers) :
    ((screen_stocks_streaming enrich metricsOf filters tickerUniverse
        exclude_tickers data_source none).checked.filter
      (fun e => e.1 == s.ticker)) =
    (if ((needs_enrichment filters
          (preFilteredFlag data_source
            (effectiveUniverse tickerUniverse exclude_tickers)) ||
        has_financial_filters filters) = true) ∧
        (preFilteredFlag data_source
            (effectiveUniverse tickerUniverse exclude_tickers) = true ∨
          passes_basic_filters s filters = true) then
      [(s.ticker, (screenStep enrich metricsOf filters
          (preFilteredFlag data_source
            (effectiveUniverse tickerUniverse exclude_tickers))
          (needs_enrichment filters
            (preFilteredFlag data_source
              (effectiveUniverse tickerUniverse exclude_tickers)))
          (has_financial_filters filters) s).2)]
    else []) := by
  rcases hu : effectiveUniverse tickerUniverse exclude_tickers with _ | ⟨s0, rest⟩
  · rw [hu] at hmem
    exact absurd hmem (by simp)
  · rw [hu] at hnodup hmem
    rw [screen_stocks_streaming]
    dsimp only
    rw [hu]
    exact screenLoop_checked_once enrich metricsOf filters
      (preFilteredFlag data_source (s0 :: rest))
      (needs_enrichment filters (preFilteredFlag data_source (s0 :: rest)))
      (has_financial_filters filters) henrich (s0 :: rest) 0 s hnodup hmem

/-- Counterexample for C7 as stated: with only an exchange filter active
(no enrichment and no financial filters needed), a NYSE-listed ticker is
evaluated — it is not excluded and is reached — and fails the cheap filters,
yet the run invokes the checked callback zero times (the code guards the
callback with `required_slow_check` and skips rejected tickers before the
callback, batch_screener.py lines 986-989 and 1026-1028). -/
theorem screen_stocks_streaming_checked_counterexample :
    ({ ticker := "NYC1", sector := "N/A", exchange := "NYSE",
       market_cap_universe := "Unknown", gross_margin := 0,
       metrics := none } : Stock) ∈
      effectiveUniverse
        [{ ticker := "NYC1", sector := "N/A", exchange := "NYSE",
           market_cap_universe := "Unknown", gross_margin := 0,
           metrics := none }] [] ∧
    (screen_stocks_streaming id (fun _ => ⟨false, 0, 0, 0, 0⟩)
      { sector := [], exchange := ["NASDAQ"], market_cap_universe := [],
        positive_fcf_last_year := none, positive_fcf_years_3 := 0,
        positive_fcf_years_5 := 0, positive_fcf_years_10 := 0,
        revenue_growth_years_5 := 0, min_gross_margin := 0 }
      [{ ticker := "NYC1", sector := "N/A", exchange := "NYSE",
         market_cap_universe := "Unknown", gross_margin := 0,
         metrics := none }] [] "yahoo" none).checked = [] := by
  constructor
  · simp [effectiveUniverse]
  · rfl

/-- Witness for C7 (amended): a sector filter forces enrichment, the ticker
passes the cheap filters, and exactly one checked event with its final pass
flag is recorded. -/
theorem screen_stocks_streaming_checked_spec_witness :
    ((screen_stocks_streaming id (fun _ => ⟨false, 0, 0, 0, 0⟩)
      { sector := ["Technology"], exchange := [], market_cap_universe := [],
        positive_fcf_last_year := none, positive_fcf_years_3 := 0,
        positive_fcf_years_5 := 0, positive_fcf_years_10 := 0,
        revenue_growth_years_5 := 0, min_gross_margin := 0 }
      [{ ticker := "TECH1", sector := "Technology", exchange := "N/A",
         market_cap_universe := "Unknown", gross_margin := 0,
         metrics := none }] [] "yahoo" none).checked.filter
      (fun e => e.1 == "TECH1")) = [("TECH1", true)] := by
  have h := screen_stocks_streaming_checked_spec id (fun _ => ⟨false, 0, 0, 0, 0⟩)
    { sector := ["Technology"], exchange := [], market_cap_universe := [],
      positive_fcf_last_year := none, positive_fcf_years_3 := 0,
      positive_fcf_years_5 := 0, positive_fcf_years_10 := 0,
      revenue_growth_years_5 := 0, min_gross_margin := 0 }
    [{ ticker := "TECH1", sector := "Technology", exchange := "N/A",
       market_cap_universe := "Unknown", gross_margin := 0,
       metrics := none }] [] "yahoo"
    { ticker := "TECH1", sector := "Technology", exchange := "N/A",
      market_cap_universe := "Unknown", gross_margin := 0, metrics := none }
    (fun _ => rfl) (by simp [effectiveUniverse]) (by simp [effectiveUniverse])
  exact h.trans (by rfl)

/-- C9 (amended): under the Supabase backend the checked-ticker round-trip
holds — after `save_checked_ticker`, `get_recently_checked_tickers` with any
non-negative retention window queried at the same time contains the ticker,
for every filter set and matched flag.  Under the SQLite backend the save is
a deliberate no-op and the query always returns the empty set, so the
round-trip fails there. -/
theorem save_checked_roundtrip_supabase (rows : List CheckedRow)
    (ticker : String) (filters : List (String × PyJson)) (matched : Bool)
    (now days : ℤ) (hdays : 0 ≤ days) :
    ticker ∈ get_recently_checked_tickers .supabase
      (save_checked_ticker .supabase rows ticker filters matched now)
      filters days now := by
  rw [save_checked_ticker, get_recently_checked_tickers]
  dsimp only [supabaseUpsertChecked]
  rw [List.filter_cons]
  rw [if_pos (by exact decide_eq_true ⟨rfl, by show now - days ≤ now; omega⟩)]
  exact List.mem_cons_self _ _

/-- Counterexample for C9 as stated: under the SQLite backend
(`_sqlite_save_checked_ticker` / `_sqlite_get_recently_checked_tickers` are
no-ops), a just-saved ticker is not returned by the query even inside the
retention window, so the round-trip does not hold under every configured
storage backend. -/
theorem save_checked_roundtrip_sqlite_counterexample :
    "AAPL" ∉ get_recently_checked_tickers .sqlite
      (save_checked_ticker .sqlite [] "AAPL" [] true 0) [] 7 0 := by
  rw [save_checked_ticker, get_recently_checked_tickers]
  simp

/-- Witness for C9 (amended): the concrete round-trip under Supabase with a
7-day window. -/
theorem save_checked_roundtrip_supabase_witness :
    "AAPL" ∈ get_recently_checked_tickers .supabase
      (save_checked_ticker .supabase [] "AAPL" [] true 0) [] 7 0 :=
  save_checked_roundtrip_supabase [] "AAPL" [] true 0 7 (by decide)

/-- Totality of the key comparison. -/
theorem charListLe_total : ∀ l1 l2 : List Char,
    charListLe l1 l2 = true ∨ charListLe l2 l1 = true
  | [], _ => Or.inl rfl
  | _ :: _, [] => Or.inr rfl
  | a :: as, b :: bs => by
    unfold charListLe
    by_cases h1 : a.toNat < b.toNat
    · exact Or.inl (by rw [if_pos h1])
    · by_cases h2 : b.toNat < a.toNat
      · exact Or.inr (by rw [if_pos h2])
      · rw [if_neg h1, if_neg h2, if_neg h2, if_neg h1]
        exact charListLe_total as bs

/-- Transitivity of the key comparison. -/
theorem charListLe_trans : ∀ l1 l2 l3 : List Char,
    charListLe l1 l2 = true → charListLe l2 l3 = true → charListLe l1 l3 = true
  | [], _, _, _, _ => rfl
  | a :: as, [], _, h1, _ => by simp [charListLe] at h1
  | a :: as, b :: bs, [], _, h2 => by simp [charListLe] at h2
  | a :: as, b :: bs, c :: cs, h1, h2 => by
    unfold charListLe at h1 h2 ⊢
    by_cases hab : a.toNat < b.toNat
    · by_cases hbc : b.toNat < c.toNat
      · rw [if_pos (by omega)]
      · rw [if_neg hbc] at h2
        by_cases hcb : c.toNat < b.toNat
        · rw [if_pos hcb] at h2
          exact absurd h2 (by simp)
        · rw [if_pos (by omega)]
    · rw [if_neg hab] at h1
      by_cases hba : b.toNat < a.toNat
      · rw [if_pos hba] at h1
        exact absurd h1 (by simp)
      · rw [if_neg hba] at h1
        by_cases hbc : b.toNat < c.toNat
        · rw [if_pos (by omega)]
        · rw [if_neg hbc] at h2
          by_cases hcb : c.toNat < b.toNat
          · rw [if_pos hcb] at h2
            exact absurd h2 (by simp)
          · rw [if_neg hcb] at h2
            rw [if_neg (by omega), if_neg (by omega)]
            exact charListLe_trans as bs cs h1 h2

/-- Antisymmetry of the key comparison. -/
theorem charListLe_antisymm : ∀ l1 l2 : List Char,
    charListLe l1 l2 = true → charListLe l2 l1 = true → l1 = l2
  | [], [], _, _ => rfl
  | [], _ :: _, _, h2 => by simp [charListLe] at h2
  | _ :: _, [], h1, _ => by simp [charListLe] at h1
  | a :: as, b :: bs, h1, h2 => by
    unfold charListLe at h1 h2
    by_cases hab : a.toNat < b.toNat
    · rw [if_neg (by omega), if_pos hab] at h2
      exact absurd h2 (by simp)
    · by_cases hba : b.toNat < a.toNat
      · rw [if_neg hab, if_pos hba] at h1
        exact absurd h1 (by simp)
      · rw [if_neg hab, if_neg hba] at h1
        rw [if_neg hba, if_neg hab] at h2
        have hchar : a = b := by
          have hval : a.toNat = b.toNat := by omega
          exact Char.eq_of_val_eq (UInt32.toNat.inj hval)
        rw [hchar, charListLe_antisymm as bs h1 h2]

/-- `dumpEntries` is a value-serializing map that keeps keys. -/
theorem dumpEntries_eq_map : ∀ es : List (String × PyJson),
    dumpEntries es = es.map (fun kv => (kv.1, dumpChars kv.2))
  | [] => rfl
  | (k, v) :: es => by
    rw [dumpEntries, dumpEntries_eq_map es, List.map_cons]

/-- Sorting serialized entries by key is invariant under permutation when the
keys are distinct: the canonical enumeration order of `sort_keys=True` depends
only on the dict contents. -/
theorem sortPairs_perm_eq (l1 l2 : List (String × List Char))
    (hperm : l1.Perm l2) (hnd : (l1.map Prod.fst).Nodup) :
    sortPairs l1 = sortPairs l2 := by
  have htrans : ∀ a b c : String × List Char,
      charListLe a.1.data b.1.data = true → charListLe b.1.data c.1.data = true →
      charListLe a.1.data c.1.data = true :=
    fun a b c hab hbc => charListLe_trans a.1.data b.1.data c.1.data hab hbc
  have htotal : ∀ a b : String × List Char,
      (charListLe a.1.data b.1.data || charListLe b.1.data a.1.data) = true := by
    intro a b
    rcases charListLe_total a.1.data b.1.data with h | h <;> simp [h]
  have hr : ∀ l : List (String × List Char), (l.map Prod.fst).Nodup →
      (l.mergeSort (fun a b => charListLe a.1.data b.1.data)).Pairwise
        (fun a b => charListLe a.1.data b.1.data = true ∧ a.1 ≠ b.1) := by
    intro l hl
    have hsorted := List.sorted_mergeSort htrans htotal l
    have hnd2 : ((l.mergeSort (fun a b => charListLe a.1.data b.1.data)).map
        Prod.fst).Nodup :=
      (((List.mergeSort_perm l _).map Prod.fst).nodup_iff).mpr hl
    have hne : (l.mergeSort (fun a b => charListLe a.1.data b.1.data)).Pairwise
        (fun a b => a.1 ≠ b.1) := List.pairwise_map.mp hnd2
    exact (hsorted.and hne).imp (fun h => ⟨h.1, h.2⟩)
  haveI : IsAntisymm (String × List Char)
      (fun a b => charListLe a.1.data b.1.data = true ∧ a.1 ≠ b.1) := by
    constructor
    intro a b ha hb
    exfalso
    apply ha.2
    have hdata := charListLe_antisymm a.1.data b.1.data ha.1 hb.1
    rcases ha1 : a.1 with ⟨da⟩
    rcases hb1 : b.1 with ⟨db⟩
    rw [ha1, hb1] at hdata
    exact congrArg String.mk hdata
  have hp : (sortPairs l1).Perm (sortPairs l2) :=
    ((List.mergeSort_perm l1 _).trans hperm).trans (List.mergeSort_perm l2 _).symm
  exact List.eq_of_perm_of_sorted hp (hr l1 hnd)
    (hr l2 ((hperm.map Prod.fst).nodup_iff.mp hnd))

/-- Serializing a JSON object is invariant under reordering its entries when
keys are distinct. -/
theorem dumpChars_obj_perm (l1 l2 : List (String × PyJson)) (hperm : l1.Perm l2)
    (hnd : (l1.map Prod.fst).Nodup) :
    dumpChars (.obj l1) = dumpChars (.obj l2) := by
  have hpe : (dumpEntries l1).Perm (dumpEntries l2) := by
    rw [dumpEntries_eq_map l1, dumpEntries_eq_map l2]
    exact hperm.map _
  have hnd1 : ((dumpEntries l1).map Prod.fst).Nodup := by
    rw [dumpEntries_eq_map l1, List.map_map]
    exact hnd
  simp only [dumpChars]
  rw [sortPairs_perm_eq _ _ hpe hnd1]

/-- C8: `_get_filter_hash` is a deterministic function of the filter-set
contents — it is a pure function of the canonical sorted-keys serialization
(MD5 of content, not Python's per-process randomized `hash()`), so hashing the
same dict twice gives the same fingerprint, and two filter dicts that differ
only in key ordering hash identically. -/
theorem get_filter_hash_key_order_invariant (l1 l2 : List (String × PyJson))
    (hperm : l1.Perm l2) (hnd : (l1.map Prod.fst).Nodup) :
    get_filter_hash l1 = get_filter_hash l2 := by
  cases l1 with
  | nil =>
    have : l2 = [] := hperm.symm.eq_nil
    rw [this]
  | cons f fs =>
    rcases hl2 : l2 with _ | ⟨g, gs⟩
    · rw [hl2] at hperm
      exact absurd hperm.eq_nil (by simp)
    · rw [hl2] at hperm
      simp only [get_filter_hash]
      rw [dumpChars_obj_perm (f :: fs) (g :: gs) hperm hnd]

/-- Witness for C8: the two orderings of the dict
`{"exchange": ["NASDAQ"], "sector": []}` produce the same fingerprint. -/
theorem get_filter_hash_key_order_invariant_witness :
    get_filter_hash [("exchange", .arr [.str "NASDAQ"]), ("sector", .arr [])] =
      get_filter_hash [("sector", .arr []), ("exchange", .arr [.str "NASDAQ"])] :=
  get_filter_hash_key_order_invariant _ _
    (List.Perm.swap ("sector", PyJson.arr [])
      ("exchange", PyJson.arr [PyJson.str "NASDAQ"]) [])
    (by simp)
